import Mathlib

/-!
Shallow embedding of `src/cpu_monitor.py` (a terminal host-telemetry monitor).

Python strings are modelled as `List Char`; the Python string operations the
program uses (`str.split(sep)`, `str.split()`, `str.strip()`, `in`,
`str.splitlines()`, `float(...)`) are embedded below.  Python `float`
arithmetic is modelled over `ℚ` (the claims under verification are the
algebraic identities, and every concrete value involved is exactly
representable).
-/

namespace CpuMonitor

/-- Character data of a string literal, for writing `List Char` constants. -/
def sl (s : String) : List Char := s.data

/-- Python whitespace test, restricted to the characters that can occur in the
program's inputs (`str.strip` and `str.split()` whitespace classes). -/
def isSpace (c : Char) : Bool :=
  c = ' ' || c = '\t' || c = '\n' || c = '\r' || c = '\x0b' || c = '\x0c'

/-- Python `s.split(sep)` for a one-character separator `sep`: splits at every
occurrence, keeping empty fields, so the result is always nonempty. -/
def splitOnChar (sep : Char) : List Char → List (List Char)
  | [] => [[]]
  | c :: cs =>
    if c = sep then [] :: splitOnChar sep cs
    else
      match splitOnChar sep cs with
      | [] => [[c]]
      | t :: ts => (c :: t) :: ts

/-- Helper for `splitWs`: `acc` is the current (reversed) in-progress word. -/
def splitWsAux : List Char → List Char → List (List Char)
  | acc, [] => if acc = [] then [] else [acc.reverse]
  | acc, c :: cs =>
    if isSpace c then
      if acc = [] then splitWsAux [] cs else acc.reverse :: splitWsAux [] cs
    else splitWsAux (c :: acc) cs

/-- Python `s.split()` (no separator): split on runs of whitespace, dropping
empty fields. -/
def splitWs (s : List Char) : List (List Char) := splitWsAux [] s

/-- Python `s.strip()`: drop whitespace from both ends. -/
def pyStrip (s : List Char) : List Char :=
  ((s.dropWhile isSpace).reverse.dropWhile isSpace).reverse

/-- Python `s.splitlines()` restricted to `\n` line breaks: like
`s.split("\n")` but empty input gives no lines and a trailing newline does not
produce a trailing empty line. -/
def splitlines (s : List Char) : List (List Char) :=
  let parts := splitOnChar '\n' s
  if parts.getLast? = some [] then parts.dropLast else parts

/-- Python `pat in s` (substring containment), as a Boolean. -/
def containsSub (pat : List Char) : List Char → Bool
  | [] => pat.isPrefixOf ([] : List Char)
  | s@(_ :: cs) => pat.isPrefixOf s || containsSub pat cs

/-- Numeric value of a decimal digit character. -/
def digitVal (c : Char) : ℕ := c.toNat - 48

/-- Value of a digit string read in base 10. -/
def natOfDigits (l : List Char) : ℕ :=
  l.foldl (fun acc c => 10 * acc + digitVal c) 0

/-- Python `float(s)` restricted to plain decimal literals (optional sign,
digits with an optional decimal point); the program only ever parses such
literals.  Returns `none` where Python raises `ValueError`. -/
def pyFloat (s : List Char) : Option ℚ :=
  let t := pyStrip s
  let signed : Bool × List Char :=
    match t with
    | '-' :: r => (true, r)
    | '+' :: r => (false, r)
    | r => (false, r)
  let val? : Option ℚ :=
    match splitOnChar '.' signed.2 with
    | [w] => if w ≠ [] ∧ w.all Char.isDigit then some (natOfDigits w) else none
    | [w, f] =>
      if (w ≠ [] ∨ f ≠ []) ∧ w.all Char.isDigit ∧ f.all Char.isDigit then
        some ((natOfDigits w : ℚ) + (natOfDigits f : ℚ) / 10 ^ f.length)
      else none
    | _ => none
  match val? with
  | none => none
  | some v => some (if signed.1 then -v else v)

/-! ### Derived-metric calculator (inlined in `main`, lines 156-173) -/

/-- CPU usage percent computed by `main` (line 160):
`(1.0 - idle_delta / total_delta) * 100.0 if total_delta else 0.0`.
Snapshots are the non-negative integers read from `/proc/stat`; the deltas are
Python integers, hence `ℤ`. -/
def cpuUsage (prev_idle prev_total idle total : ℕ) : ℚ :=
  let idle_delta : ℤ := (idle : ℤ) - prev_idle
  let total_delta : ℤ := (total : ℤ) - prev_total
  if total_delta ≠ 0 then (1 - (idle_delta : ℚ) / (total_delta : ℚ)) * 100 else 0

/-- Per-direction byte delta computed by `main` (lines 170-171):
`max(cur - prev, 0)`. -/
def byteDelta (cur prev : ℕ) : ℤ := max ((cur : ℤ) - prev) 0

/-- Per-direction byte rate computed by `main` (lines 172-173):
`delta / elapsed if elapsed > 0 else 0.0`. -/
def byteRate (cur prev : ℕ) (elapsed : ℚ) : ℚ :=
  if 0 < elapsed then (byteDelta cur prev : ℚ) / elapsed else 0

/-! ### Presentation layer -/

def RESET : String := "\x1b[0m"
def YELLOW : String := "\x1b[33m"
def ORANGE : String := "\x1b[38;5;208m"
def RED : String := "\x1b[31m"
def PURPLE : String := "\x1b[35m"

/-- `color_for_cpu` (lines 67-77): ANSI color based on CPU usage %. -/
def color_for_cpu (usage : ℚ) : String :=
  if usage ≥ 90 then PURPLE
  else if usage ≥ 70 then RED
  else if usage ≥ 50 then ORANGE
  else if usage ≥ 30 then YELLOW
  else RESET

/-- `color_for_temp` (lines 80-88): ANSI color based on temperature °C. -/
def color_for_temp (temp_c : ℚ) : String :=
  if temp_c ≥ 75 then RED
  else if temp_c ≥ 68 then ORANGE
  else if temp_c ≥ 60 then YELLOW
  else RESET

/-- Python `f"{v:7.2f}"` for the non-negative values `format_bytes_per_sec`
produces: round to two decimals, right-align to a minimum width of 7. -/
def fmt72 (v : ℚ) : String :=
  let cents : ℕ := (⌊v * 100 + 1 / 2⌋).toNat
  let frac : ℕ := cents % 100
  let s : String :=
    toString (cents / 100) ++ "." ++ (if frac < 10 then "0" else "") ++ toString frac
  if s.length < 7 then ⟨List.replicate (7 - s.length) ' '⟩ ++ s else s

/-- Unit ladder of `format_bytes_per_sec` (line 93). -/
def rateUnits : List String := ["B/s", "KB/s", "MB/s", "GB/s", "TB/s"]

/-- Loop of `format_bytes_per_sec` (lines 95-98): emit at the current unit if
the value is below 1024 or no larger unit remains, else divide by 1024 and
move to the next unit. -/
def scaleLoop : ℚ → List String → String
  | _, [] => ""
  | v, [u] => fmt72 v ++ " " ++ u
  | v, u :: u' :: us =>
    if v < 1024 then fmt72 v ++ " " ++ u else scaleLoop (v / 1024) (u' :: us)

/-- `format_bytes_per_sec` (lines 91-98): clamp negatives to `0.0`, then scale
through the unit ladder. -/
def format_bytes_per_sec (num_bytes_per_sec : ℚ) : String :=
  scaleLoop (max num_bytes_per_sec 0) rateUnits

/-! ### Latency prober (`run_ping`, lines 101-134) -/

/-- Outcome of the `subprocess.run` invocation in `run_ping`: either an
exception while launching/waiting (binary missing, permission denied,
`TimeoutExpired` from the 15 s timeout, ...), caught by the `except` clause as
`str(exc)`, or a completed process with an exit code, stdout and stderr. -/
inductive PingExec where
  | exn (msg : List Char)
  | ok (returncode : ℤ) (stdout stderr : List Char)

/-- Scan of lines 119-123: the first stdout line containing `"rtt"` or
`"round-trip"`, if any. -/
def markerLine : List (List Char) → Option (List Char)
  | [] => none
  | l :: ls =>
    if containsSub (sl "rtt") l || containsSub (sl "round-trip") l then some l
    else markerLine ls

/-- Lines 128-130 of `run_ping`:
`stats = stats_line.split("=")[1].strip().split()[0]`,
`parts = stats.split("/")`, `avg_ms = float(parts[1])`.
`none` models the caught `IndexError`/`ValueError` (line 131). -/
def extractAvg (stats_line : List Char) : Option ℚ :=
  match (splitOnChar '=' stats_line).get? 1 with
  | none => none
  | some seg =>
    match (splitWs (pyStrip seg)).get? 0 with
    | none => none
    | some stats =>
      match (splitOnChar '/' stats).get? 1 with
      | none => none
      | some p => pyFloat p

/-- `run_ping` (lines 101-134), as a function of the subprocess outcome.  The
returned pair is Python's `(avg_ms_or_None, error_or_None)`. -/
def run_ping : PingExec → Option ℚ × Option (List Char)
  | .exn msg => (none, some msg)
  | .ok rc out err =>
    if rc ≠ 0 then
      (none, some (if pyStrip err = [] then sl ("ping exited with " ++ toString rc)
                   else pyStrip err))
    else
      match markerLine (splitlines out) with
      | none => (none, some (sl "unable to parse ping output"))
      | some stats_line =>
        match extractAvg stats_line with
        | none => (none, some (sl "invalid ping average"))
        | some avg_ms => (some avg_ms, none)

/-- Stdout of a successful `ping -c 3 -n 1.1.1.1` run, used as a concrete test
vector for `run_ping`. -/
def pingOutputExample : List Char :=
  sl "PING 1.1.1.1 (1.1.1.1) 56(84) bytes of data.\n64 bytes from 1.1.1.1: icmp_seq=1 ttl=57 time=12.1 ms\n\n--- 1.1.1.1 ping statistics ---\n3 packets transmitted, 3 received, 0% packet loss, time 2003ms\nrtt min/avg/max/mdev = 10.1/12.5/15.0/1.2 ms\n"

/-! ### Helper lemmas about the embedded string operations -/

theorem splitOnChar_of_not_mem {sep : Char} {l : List Char} (h : sep ∉ l) :
    splitOnChar sep l = [l] := by
  induction l with
  | nil => rfl
  | cons c cs ih =>
    have hc : ¬ c = sep := fun he => h (he ▸ List.mem_cons_self c cs)
    have hcs : sep ∉ cs := fun hm => h (List.mem_cons_of_mem c hm)
    rw [splitOnChar, if_neg hc, ih hcs]

theorem splitOnChar_append {sep : Char} {a : List Char} (b : List Char)
    (h : sep ∉ a) : splitOnChar sep (a ++ sep :: b) = a :: splitOnChar sep b := by
  induction a with
  | nil => simp [splitOnChar]
  | cons c cs ih =>
    have hc : ¬ c = sep := fun he => h (he ▸ List.mem_cons_self c cs)
    have hcs : sep ∉ cs := fun hm => h (List.mem_cons_of_mem c hm)
    rw [List.cons_append, splitOnChar, if_neg hc, ih hcs]

theorem splitWsAux_word (rest : List Char) :
    ∀ (w acc : List Char), (∀ x ∈ w, isSpace x = false) →
      splitWsAux acc (w ++ ' ' :: rest) =
        if acc.reverse ++ w = [] then splitWsAux [] rest
        else (acc.reverse ++ w) :: splitWsAux [] rest := by
  intro w
  induction w with
  | nil =>
    intro acc _
    rw [List.nil_append, splitWsAux, show isSpace ' ' = true from rfl, if_pos rfl,
      List.append_nil]
    by_cases hacc : acc = []
    · subst hacc; simp
    · rw [if_neg hacc, if_neg (fun hh => hacc (List.reverse_eq_nil_iff.mp hh))]
  | cons x xs ih =>
    intro acc hw
    have hx : isSpace x = false := hw x (List.mem_cons_self x xs)
    have hxs : ∀ y ∈ xs, isSpace y = false :=
      fun y hy => hw y (List.mem_cons_of_mem x hy)
    rw [List.cons_append, splitWsAux, hx, if_neg Bool.false_ne_true,
      ih (x :: acc) hxs, List.reverse_cons]
    simp [List.append_assoc]

theorem splitWs_word {w : List Char} (rest : List Char)
    (hw : ∀ x ∈ w, isSpace x = false) (hne : w ≠ []) :
    splitWs (w ++ ' ' :: rest) = w :: splitWs rest := by
  rw [splitWs, splitWsAux_word rest w [] hw]
  simp [hne, splitWs]

theorem dropWhile_isSpace_eq_self {l : List Char}
    (h : ∀ c, l.head? = some c → isSpace c = false) :
    l.dropWhile isSpace = l := by
  cases l with
  | nil => rfl
  | cons c cs => rw [List.dropWhile_cons, h c rfl]; simp

theorem pyStrip_eq_self {l : List Char}
    (h1 : ∀ c, l.head? = some c → isSpace c = false)
    (h2 : ∀ c, l.getLast? = some c → isSpace c = false) :
    pyStrip l = l := by
  rw [pyStrip, dropWhile_isSpace_eq_self h1,
    dropWhile_isSpace_eq_self (by simpa using h2), List.reverse_reverse]

theorem pyStrip_cons_space (l : List Char) : pyStrip (' ' :: l) = pyStrip l := by
  rw [pyStrip, pyStrip, List.dropWhile_cons]
  simp [isSpace]

theorem splitlines_single {l : List Char} (hn : '\n' ∉ l) (hne : l ≠ []) :
    splitlines l = [l] := by
  rw [splitlines, splitOnChar_of_not_mem hn]
  simp [hne]

theorem containsSub_of_isPrefixOf {pat s : List Char}
    (h : pat.isPrefixOf s = true) : containsSub pat s = true := by
  cases s with
  | nil => exact h
  | cons c cs => rw [containsSub, h, Bool.true_or]

theorem head_append_nonspace {a rest : List Char}
    (ha : ∀ x ∈ a, isSpace x = false)
    (hr : ∀ c, rest.head? = some c → isSpace c = false) :
    ∀ c, (a ++ rest).head? = some c → isSpace c = false := by
  cases a with
  | nil => simpa using hr
  | cons x xs =>
    intro c hc
    rw [List.cons_append, List.head?_cons, Option.some.injEq] at hc
    exact hc ▸ ha x (List.mem_cons_self x xs)

theorem extractAvg_four {a b c d : List Char}
    (hch : ∀ x ∈ a ++ b ++ c ++ d, isSpace x = false ∧ x ≠ '/' ∧ x ≠ '=') :
    extractAvg (sl "rtt min/avg/max/mdev " ++ '=' :: ' ' ::
      ((a ++ '/' :: (b ++ '/' :: (c ++ '/' :: d))) ++ sl " ms")) = pyFloat b := by
  have ha : ∀ x ∈ a, isSpace x = false ∧ x ≠ '/' ∧ x ≠ '=' :=
    fun x hx => hch x (by simp [hx])
  have hb : ∀ x ∈ b, isSpace x = false ∧ x ≠ '/' ∧ x ≠ '=' :=
    fun x hx => hch x (by simp [hx])
  have hc : ∀ x ∈ c, isSpace x = false ∧ x ≠ '/' ∧ x ≠ '=' :=
    fun x hx => hch x (by simp [hx])
  have hd : ∀ x ∈ d, isSpace x = false ∧ x ≠ '/' ∧ x ≠ '=' :=
    fun x hx => hch x (by simp [hx])
  have hbodyns : ∀ x ∈ a ++ '/' :: (b ++ '/' :: (c ++ '/' :: d)), isSpace x = false := by
    intro x hx
    simp only [List.mem_append, List.mem_cons] at hx
    rcases hx with hx | hx | hx | hx | hx | hx | hx
    · exact (ha x hx).1
    · subst hx; decide
    · exact (hb x hx).1
    · subst hx; decide
    · exact (hc x hx).1
    · subst hx; decide
    · exact (hd x hx).1
  have hbodyeq : '=' ∉ a ++ '/' :: (b ++ '/' :: (c ++ '/' :: d)) := by
    intro hx
    simp only [List.mem_append, List.mem_cons] at hx
    rcases hx with hx | hx | hx | hx | hx | hx | hx
    · exact (ha '=' hx).2.2 rfl
    · exact absurd hx (by decide)
    · exact (hb '=' hx).2.2 rfl
    · exact absurd hx (by decide)
    · exact (hc '=' hx).2.2 rfl
    · exact absurd hx (by decide)
    · exact (hd '=' hx).2.2 rfl
  have hseg : '=' ∉ ' ' :: ((a ++ '/' :: (b ++ '/' :: (c ++ '/' :: d))) ++ sl " ms") := by
    intro hx
    simp only [List.mem_cons, List.mem_append] at hx
    rcases hx with hx | hx | hx
    · exact absurd hx (by decide)
    · exact hbodyeq (by simpa using hx)
    · exact absurd hx (by decide)
  rw [extractAvg,
    splitOnChar_append (' ' :: ((a ++ '/' :: (b ++ '/' :: (c ++ '/' :: d))) ++ sl " ms"))
      (by decide),
    splitOnChar_of_not_mem hseg]
  simp only [List.get?]
  have hhead : ∀ ch,
      ((a ++ '/' :: (b ++ '/' :: (c ++ '/' :: d))) ++ sl " ms").head? = some ch →
      isSpace ch = false := by
    cases a with
    | nil =>
      intro ch hh
      rw [List.nil_append, List.cons_append, List.head?_cons, Option.some.injEq] at hh
      subst hh; decide
    | cons y ys =>
      intro ch hh
      rw [List.cons_append, List.cons_append, List.head?_cons, Option.some.injEq] at hh
      subst hh
      exact (ha y (List.mem_cons_self y ys)).1
  rw [pyStrip_cons_space,
    pyStrip_eq_self hhead
      (by
        rw [show sl " ms" = ' ' :: 'm' :: 's' :: [] from rfl, List.getLast?_append_cons]
        intro ch hh
        rw [show List.getLast? (' ' :: 'm' :: 's' :: []) = some 's' from rfl,
          Option.some.injEq] at hh
        subst hh; decide)]
  rw [show sl " ms" = ' ' :: sl "ms" from rfl,
    splitWs_word (sl "ms") hbodyns (by simp)]
  simp only [List.get?]
  rw [splitOnChar_append (b ++ '/' :: (c ++ '/' :: d)) (fun hx => (ha '/' hx).2.1 rfl),
    splitOnChar_append (c ++ '/' :: d) (fun hx => (hb '/' hx).2.1 rfl),
    splitOnChar_append d (fun hx => (hc '/' hx).2.1 rfl),
    splitOnChar_of_not_mem (fun hx => (hd '/' hx).2.1 rfl)]
  simp only [List.get?]

theorem fmt72_eq (v : ℚ) (c : ℕ) (h : ⌊v * 100 + 1 / 2⌋ = (c : ℤ)) (s : String)
    (hs : (if ((toString (c / 100) ++ "." ++ (if c % 100 < 10 then "0" else "") ++
          toString (c % 100)).length < 7) then
        (⟨List.replicate (7 - (toString (c / 100) ++ "." ++
            (if c % 100 < 10 then "0" else "") ++ toString (c % 100)).length) ' '⟩ ++
          (toString (c / 100) ++ "." ++ (if c % 100 < 10 then "0" else "") ++
            toString (c % 100)) : String)
      else
        (toString (c / 100) ++ "." ++ (if c % 100 < 10 then "0" else "") ++
          toString (c % 100))) = s) :
    fmt72 v = s := by
  simp only [fmt72, h, Int.toNat_natCast]
  exact hs

theorem format_bytes_per_sec_tb {x : ℚ} (h : 1024 ^ 4 ≤ x) :
    format_bytes_per_sec x = fmt72 (x / 1024 ^ 4) ++ " TB/s" := by
  have h0 : (0 : ℚ) ≤ x := le_trans (by norm_num) h
  rw [format_bytes_per_sec, max_eq_left h0, rateUnits]
  rw [scaleLoop, if_neg (not_lt.mpr (le_trans (by norm_num) h))]
  rw [scaleLoop, if_neg (not_lt.mpr ((le_div_iff₀ (by norm_num)).mpr
    (le_trans (by norm_num) h)))]
  rw [scaleLoop, if_neg (not_lt.mpr ((le_div_iff₀ (by norm_num)).mpr
    ((le_div_iff₀ (by norm_num)).mpr (le_trans (by norm_num) h))))]
  rw [scaleLoop, if_neg (not_lt.mpr ((le_div_iff₀ (by norm_num)).mpr
    ((le_div_iff₀ (by norm_num)).mpr ((le_div_iff₀ (by norm_num)).mpr
      (le_trans (by norm_num) h)))))]
  rw [scaleLoop, div_div, div_div, div_div,
    show (1024 : ℚ) * (1024 * (1024 * 1024)) = 1024 ^ 4 from by norm_num,
    String.append_assoc, show (" " ++ "TB/s" : String) = " TB/s" from rfl]

theorem run_ping_zero_no_marker (out err : List Char)
    (hm : markerLine (splitlines out) = none) :
    run_ping (.ok 0 out err) = (none, some (sl "unable to parse ping output")) := by
  rw [run_ping, if_neg (by decide)]
  split
  · rfl
  · rename_i L heq
    rw [hm] at heq
    exact Option.noConfusion heq

theorem run_ping_zero_bad_avg (out err L : List Char)
    (hm : markerLine (splitlines out) = some L) (ha : extractAvg L = none) :
    run_ping (.ok 0 out err) = (none, some (sl "invalid ping average")) := by
  rw [run_ping, if_neg (by decide)]
  split
  · rename_i heq
    rw [hm] at heq
    exact Option.noConfusion heq
  · rename_i L' heq
    rw [hm] at heq
    cases heq
    split
    · rfl
    · rename_i v heq2
      rw [ha] at heq2
      exact Option.noConfusion heq2

theorem run_ping_zero_success (out err L : List Char) (v : ℚ)
    (hm : markerLine (splitlines out) = some L) (ha : extractAvg L = some v) :
    run_ping (.ok 0 out err) = (some v, none) := by
  rw [run_ping, if_neg (by decide)]
  split
  · rename_i heq
    rw [hm] at heq
    exact Option.noConfusion heq
  · rename_i L' heq
    rw [hm] at heq
    cases heq
    split
    · rename_i heq2
      rw [ha] at heq2
      exact Option.noConfusion heq2
    · rename_i v' heq2
      rw [ha] at heq2
      cases heq2
      rfl

theorem fourParts_nonspace {a b c d : List Char}
    (hch : ∀ x ∈ a ++ b ++ c ++ d, isSpace x = false ∧ x ≠ '/' ∧ x ≠ '=') :
    ∀ x ∈ a ++ '/' :: (b ++ '/' :: (c ++ '/' :: d)), isSpace x = false := by
  intro x hx
  simp only [List.mem_append, List.mem_cons] at hx
  rcases hx with hx | hx | hx | hx | hx | hx | hx
  · exact (hch x (by simp [hx])).1
  · subst hx; decide
  · exact (hch x (by simp [hx])).1
  · subst hx; decide
  · exact (hch x (by simp [hx])).1
  · subst hx; decide
  · exact (hch x (by simp [hx])).1

/-! ### Claim theorems -/

/-- C1: for CPU snapshots with `prev_idle ≤ cur_idle` and
`prev_total ≤ cur_total`, the per-tick CPU usage equals
`(1 - (cur_idle - prev_idle) / (cur_total - prev_total)) * 100` when
`cur_total > prev_total`, and is exactly `0` when `cur_total = prev_total`. -/
theorem C1_cpu_usage_formula (pi pt ci ct : ℕ) (_hi : pi ≤ ci) (_ht : pt ≤ ct) :
    (pt < ct →
      cpuUsage pi pt ci ct = (1 - ((ci : ℚ) - pi) / ((ct : ℚ) - pt)) * 100) ∧
    (ct = pt → cpuUsage pi pt ci ct = 0) := by
  constructor
  · intro hlt
    have hne : ((ct : ℤ) - pt) ≠ 0 := sub_ne_zero.mpr (by exact_mod_cast hlt.ne')
    simp only [cpuUsage]
    rw [if_pos hne]
    push_cast
    ring
  · intro heq
    subst heq
    simp only [cpuUsage]
    rw [if_neg (not_not_intro (sub_self _))]

/-- Witness for C1 at concrete snapshots. -/
theorem C1_cpu_usage_formula_witness :
    cpuUsage 100 1000 200 1200 = 50 ∧ cpuUsage 100 1000 200 1000 = 0 := by
  constructor
  · rw [(C1_cpu_usage_formula 100 1000 200 1200 (by norm_num) (by norm_num)).1
      (by norm_num)]
    norm_num
  · exact (C1_cpu_usage_formula 100 1000 200 1000 (by norm_num) (by norm_num)).2 rfl

/-- C2: a zero total-tick delta yields CPU usage 0, and a zero or negative
elapsed time yields byte rate 0; in both computations the division branch is
guarded by the divisor being nonzero. -/
theorem C2_division_guards (pi pt ci ct cur prev : ℕ) (e : ℚ) :
    ((ct : ℤ) - (pt : ℤ) = 0 → cpuUsage pi pt ci ct = 0) ∧
    (e ≤ 0 → byteRate cur prev e = 0) := by
  constructor
  · intro h
    simp only [cpuUsage]
    rw [if_neg (not_not_intro h)]
  · intro h
    rw [byteRate, if_neg (not_lt.mpr h)]

/-- Witness for C2 at concrete inputs. -/
theorem C2_division_guards_witness :
    cpuUsage 5 10 7 10 = 0 ∧ byteRate 9 3 0 = 0 :=
  ⟨(C2_division_guards 5 10 7 10 9 3 0).1 (by norm_num),
    (C2_division_guards 5 10 7 10 9 3 0).2 le_rfl⟩

/-- C3: when a current network counter is smaller than the previous one, the
per-direction byte delta is clamped to 0, and the computed rate is never
negative. -/
theorem C3_counter_reset_clamp (cur prev : ℕ) (e : ℚ) :
    (cur < prev → byteDelta cur prev = 0) ∧ 0 ≤ byteRate cur prev e := by
  constructor
  · intro h
    rw [byteDelta, max_eq_right]
    exact sub_nonpos.mpr (by exact_mod_cast h.le)
  · rw [byteRate]
    by_cases he : 0 < e
    · rw [if_pos he]
      have h0 : (0 : ℤ) ≤ byteDelta cur prev := le_max_right ((cur : ℤ) - prev) 0
      exact div_nonneg (by exact_mod_cast h0) he.le
    · rw [if_neg he]

/-- Witness for C3 at a concrete counter reset. -/
theorem C3_counter_reset_clamp_witness :
    byteDelta 5 10 = 0 ∧ 0 ≤ byteRate 5 10 1 :=
  ⟨(C3_counter_reset_clamp 5 10 1).1 (by norm_num), (C3_counter_reset_clamp 5 10 1).2⟩

/-- C8: the color band thresholds are inclusive on the upper side:
`color_for_cpu` is neutral at 29.9, band 1 at 30.0, band 3 at 89.9, band 4 at
90.0, and `color_for_temp` is neutral at 59.9, elevated at 60.0, with the
analogous inclusive boundaries at 68.0 and 75.0. -/
theorem C8_color_thresholds :
    color_for_cpu (299 / 10) = RESET ∧ color_for_cpu 30 = YELLOW ∧
    color_for_cpu (899 / 10) = RED ∧ color_for_cpu 90 = PURPLE ∧
    color_for_temp (599 / 10) = RESET ∧ color_for_temp 60 = YELLOW ∧
    color_for_temp (679 / 10) = YELLOW ∧ color_for_temp 68 = ORANGE ∧
    color_for_temp (749 / 10) = ORANGE ∧ color_for_temp 75 = RED := by
  refine ⟨?_, ?_, ?_, ?_, ?_, ?_, ?_, ?_, ?_, ?_⟩ <;>
    norm_num [color_for_cpu, color_for_temp]

/-- C10: `format_bytes_per_sec` clamps every negative input to 0 before unit
scaling, so its output for a negative rate equals its output for 0. -/
theorem C10_formatter_clamps_negative (x : ℚ) (h : x < 0) :
    format_bytes_per_sec x = format_bytes_per_sec 0 := by
  rw [format_bytes_per_sec, format_bytes_per_sec, max_eq_right h.le, max_self]

/-- Witness for C10 at a concrete negative rate. -/
theorem C10_formatter_clamps_negative_witness :
    format_bytes_per_sec (-5) = format_bytes_per_sec 0 :=
  C10_formatter_clamps_negative (-5) (by norm_num)

/-- C4: every ping-invocation outcome — launch exception or timeout (the
`exn` case), non-zero exit, or zero exit with arbitrary output — that does not
produce a latency yields a tagged failure carrying a diagnostic string;
`run_ping` is a total function on `PingExec`, so no error propagates. -/
theorem C4_probe_failures_tagged :
    (∀ msg, run_ping (.exn msg) = (none, some msg)) ∧
    (∀ (rc : ℤ) (out err : List Char), rc ≠ 0 →
      ∃ m, run_ping (.ok rc out err) = (none, some m)) ∧
    (∀ out err, (run_ping (.ok 0 out err)).1 = none →
      ∃ m, run_ping (.ok 0 out err) = (none, some m)) := by
  refine ⟨fun msg => rfl,
    fun rc out err hrc => ⟨_, by rw [run_ping, if_pos hrc]⟩, ?_⟩
  intro out err h
  cases hm : markerLine (splitlines out) with
  | none => exact ⟨_, run_ping_zero_no_marker out err hm⟩
  | some L =>
    cases ha : extractAvg L with
    | none => exact ⟨_, run_ping_zero_bad_avg out err L hm ha⟩
    | some v =>
      rw [run_ping_zero_success out err L v hm ha] at h
      exact Option.noConfusion h

/-- Witness for C4 at a concrete non-zero exit. -/
theorem C4_probe_failures_tagged_witness :
    ∃ m, run_ping (.ok 1 [] (sl "boom")) = (none, some m) :=
  C4_probe_failures_tagged.2.1 1 [] (sl "boom") (by decide)

/-- C9: for every ping-invocation outcome, the pair returned by `run_ping`
has exactly one non-`none` component: either `(some latency, none)` or
`(none, some message)`. -/
theorem C9_exactly_one_slot (e : PingExec) :
    (∃ v, run_ping e = (some v, none)) ∨ (∃ m, run_ping e = (none, some m)) := by
  cases e with
  | exn msg => exact Or.inr ⟨msg, rfl⟩
  | ok rc out err =>
    by_cases hrc : rc = 0
    · subst hrc
      cases hm : markerLine (splitlines out) with
      | none => exact Or.inr ⟨_, run_ping_zero_no_marker out err hm⟩
      | some L =>
        cases ha : extractAvg L with
        | none => exact Or.inr ⟨_, run_ping_zero_bad_avg out err L hm ha⟩
        | some v => exact Or.inl ⟨v, run_ping_zero_success out err L v hm ha⟩
    · exact Or.inr ⟨_, by rw [run_ping, if_pos hrc]⟩

/-- C6 counterexample: on zero-exit output without a marker line the code
reports "unable to parse ping output", not the claimed
"unable to parse output". -/
theorem C6_counterexample :
    run_ping (.ok 0 (sl "PING 1.1.1.1 (1.1.1.1) 56(84) bytes of data.") []) =
      (none, some (sl "unable to parse ping output")) ∧
    sl "unable to parse ping output" ≠ sl "unable to parse output" := by
  constructor
  · exact run_ping_zero_no_marker _ []
      (by decide)
  · decide

/-- C6 (amended): `run_ping`'s failure reasons are exactly: for non-zero exit,
the stripped stderr if nonempty after stripping, else
"ping exited with <code>"; for zero-exit output with no marker line,
"unable to parse ping output"; for a marker line whose mean cannot be parsed,
"invalid ping average". -/
theorem C6_failure_reasons :
    (∀ (rc : ℤ) (out err : List Char), rc ≠ 0 → pyStrip err ≠ [] →
      run_ping (.ok rc out err) = (none, some (pyStrip err))) ∧
    (∀ (rc : ℤ) (out err : List Char), rc ≠ 0 → pyStrip err = [] →
      run_ping (.ok rc out err) =
        (none, some (sl ("ping exited with " ++ toString rc)))) ∧
    run_ping (.ok 1 [] (sl "Network unreachable")) =
      (none, some (sl "Network unreachable")) ∧
    (∀ out, markerLine (splitlines out) = none →
      run_ping (.ok 0 out []) = (none, some (sl "unable to parse ping output"))) ∧
    (∀ out L, markerLine (splitlines out) = some L → extractAvg L = none →
      run_ping (.ok 0 out []) = (none, some (sl "invalid ping average"))) := by
  refine ⟨?_, ?_, ?_, ?_, ?_⟩
  · intro rc out err h1 h2
    rw [run_ping, if_pos h1, if_neg h2]
  · intro rc out err h1 h2
    rw [run_ping, if_pos h1, if_pos h2]
  · rw [run_ping, if_pos (by decide)]
    decide
  · intro out h
    exact run_ping_zero_no_marker out [] h
  · intro out L h1 h2
    exact run_ping_zero_bad_avg out [] L h1 h2

/-- Witness for C6 at a concrete non-zero exit with whitespace-only stderr. -/
theorem C6_failure_reasons_witness :
    run_ping (.ok 2 [] (sl "  ")) =
      (none, some (sl ("ping exited with " ++ toString (2 : ℤ)))) :=
  C6_failure_reasons.2.1 2 [] (sl "  ") (by decide) (by decide)

/-- C7 counterexample: the formatter pads to a minimum width of 7, so
`format_bytes_per_sec 500` is " 500.00 B/s", not the claimed "500.00 B/s". -/
theorem C7_counterexample :
    format_bytes_per_sec 500 ≠ "500.00 B/s" ∧
    format_bytes_per_sec 500 = " 500.00 B/s" := by
  have h : format_bytes_per_sec 500 = " 500.00 B/s" := by
    rw [format_bytes_per_sec, show max (500 : ℚ) 0 = 500 from by norm_num, rateUnits,
      scaleLoop, if_pos (by norm_num),
      fmt72_eq 500 50000 (by norm_num) " 500.00" (by decide)]
    decide
  exact ⟨by rw [h]; decide, h⟩

/-- C7 (amended): `format_bytes_per_sec` scales by repeated division by 1024
while the value is ≥ 1024 and a larger unit remains, stops at TB/s regardless
of magnitude, and formats with two decimals right-aligned to width 7:
500 → " 500.00 B/s", 2048 → "   2.00 KB/s", 1536 → "   1.50 KB/s", and every
value ≥ 1024^4 remains in TB/s. -/
theorem C7_format_rate_scaling :
    format_bytes_per_sec 500 = " 500.00 B/s" ∧
    format_bytes_per_sec 2048 = "   2.00 KB/s" ∧
    format_bytes_per_sec 1536 = "   1.50 KB/s" ∧
    ∀ x : ℚ, 1024 ^ 4 ≤ x →
      format_bytes_per_sec x = fmt72 (x / 1024 ^ 4) ++ " TB/s" := by
  refine ⟨?_, ?_, ?_, fun x hx => format_bytes_per_sec_tb hx⟩
  · rw [format_bytes_per_sec, show max (500 : ℚ) 0 = 500 from by norm_num, rateUnits,
      scaleLoop, if_pos (by norm_num),
      fmt72_eq 500 50000 (by norm_num) " 500.00" (by decide)]
    decide
  · rw [format_bytes_per_sec, show max (2048 : ℚ) 0 = 2048 from by norm_num, rateUnits,
      scaleLoop, if_neg (by norm_num),
      show (2048 : ℚ) / 1024 = 2 from by norm_num,
      scaleLoop, if_pos (by norm_num),
      fmt72_eq 2 200 (by norm_num) "   2.00" (by decide)]
    decide
  · rw [format_bytes_per_sec, show max (1536 : ℚ) 0 = 1536 from by norm_num, rateUnits,
      scaleLoop, if_neg (by norm_num),
      show (1536 : ℚ) / 1024 = 3 / 2 from by norm_num,
      scaleLoop, if_pos (by norm_num),
      fmt72_eq (3 / 2) 150 (by norm_num) "   1.50" (by decide)]
    decide

/-- Witness for C7 at the smallest TB/s value. -/
theorem C7_format_rate_scaling_witness :
    format_bytes_per_sec (1024 ^ 4) = "   1.00 TB/s" := by
  rw [C7_format_rate_scaling.2.2.2 (1024 ^ 4) le_rfl,
    show (1024 : ℚ) ^ 4 / 1024 ^ 4 = 1 from by norm_num,
    fmt72_eq 1 100 (by norm_num) "   1.00" (by decide)]
  decide

/-- C5: for a zero-exit ping whose output contains the round-trip statistics
line, `run_ping` returns the second element of the slash-delimited list
following the `=` as the mean latency; in particular the line
`rtt min/avg/max/mdev = 10.1/12.5/15.0/1.2 ms` yields Success(12.5). -/
theorem C5_mean_is_second_element :
    run_ping (.ok 0 pingOutputExample []) = (some (25 / 2 : ℚ), none) ∧
    ∀ (a b c d : List Char) (v : ℚ),
      (∀ x ∈ a ++ b ++ c ++ d, isSpace x = false ∧ x ≠ '/' ∧ x ≠ '=') →
      pyFloat b = some v →
      run_ping (.ok 0 (sl "rtt min/avg/max/mdev " ++ '=' :: ' ' ::
          ((a ++ '/' :: (b ++ '/' :: (c ++ '/' :: d))) ++ sl " ms")) []) =
        (some v, none) := by
  constructor
  · refine run_ping_zero_success pingOutputExample []
      (sl "rtt min/avg/max/mdev = 10.1/12.5/15.0/1.2 ms") (25 / 2) (by decide) ?_
    rw [show extractAvg (sl "rtt min/avg/max/mdev = 10.1/12.5/15.0/1.2 ms") =
        some ((natOfDigits (sl "12") : ℚ) + (natOfDigits (sl "5") : ℚ) / 10 ^ 1)
        from rfl,
      show natOfDigits (sl "12") = 12 from rfl,
      show natOfDigits (sl "5") = 5 from rfl]
    norm_num
  · intro a b c d v hch hv
    have hns := fourParts_nonspace hch
    have ha : ∀ x ∈ a, isSpace x = false ∧ x ≠ '/' ∧ x ≠ '=' :=
      fun x hx => hch x (by simp [hx])
    have hb : ∀ x ∈ b, isSpace x = false ∧ x ≠ '/' ∧ x ≠ '=' :=
      fun x hx => hch x (by simp [hx])
    have hcc : ∀ x ∈ c, isSpace x = false ∧ x ≠ '/' ∧ x ≠ '=' :=
      fun x hx => hch x (by simp [hx])
    have hd : ∀ x ∈ d, isSpace x = false ∧ x ≠ '/' ∧ x ≠ '=' :=
      fun x hx => hch x (by simp [hx])
    have hnl : '\n' ∉ sl "rtt min/avg/max/mdev " ++ '=' :: ' ' ::
        ((a ++ '/' :: (b ++ '/' :: (c ++ '/' :: d))) ++ sl " ms") := by
      intro hmem
      simp only [List.mem_append, List.mem_cons] at hmem
      rcases hmem with h1 | h1 | h1 | hB | h1
      · exact absurd h1 (by decide)
      · exact absurd h1 (by decide)
      · exact absurd h1 (by decide)
      · rcases hB with h1 | h1 | h1 | h1 | h1 | h1 | h1
        · exact absurd (ha _ h1).1 (by decide)
        · exact absurd h1 (by decide)
        · exact absurd (hb _ h1).1 (by decide)
        · exact absurd h1 (by decide)
        · exact absurd (hcc _ h1).1 (by decide)
        · exact absurd h1 (by decide)
        · exact absurd (hd _ h1).1 (by decide)
      · exact absurd h1 (by decide)
    have hne : sl "rtt min/avg/max/mdev " ++ '=' :: ' ' ::
        ((a ++ '/' :: (b ++ '/' :: (c ++ '/' :: d))) ++ sl " ms") ≠ [] := by
      rw [show sl "rtt min/avg/max/mdev " = 'r' :: sl "tt min/avg/max/mdev " from rfl,
        List.cons_append]
      exact List.cons_ne_nil _ _
    have hpre : (sl "rtt").isPrefixOf (sl "rtt min/avg/max/mdev " ++ '=' :: ' ' ::
        ((a ++ '/' :: (b ++ '/' :: (c ++ '/' :: d))) ++ sl " ms")) = true := by
      rw [List.isPrefixOf_iff_prefix]
      exact List.IsPrefix.trans ⟨sl " min/avg/max/mdev ", rfl⟩ (List.prefix_append _ _)
    have hmark : markerLine [sl "rtt min/avg/max/mdev " ++ '=' :: ' ' ::
        ((a ++ '/' :: (b ++ '/' :: (c ++ '/' :: d))) ++ sl " ms")] =
        some (sl "rtt min/avg/max/mdev " ++ '=' :: ' ' ::
          ((a ++ '/' :: (b ++ '/' :: (c ++ '/' :: d))) ++ sl " ms")) := by
      rw [markerLine, containsSub_of_isPrefixOf hpre, Bool.true_or, if_pos rfl]
    refine run_ping_zero_success _ []
      (sl "rtt min/avg/max/mdev " ++ '=' :: ' ' ::
        ((a ++ '/' :: (b ++ '/' :: (c ++ '/' :: d))) ++ sl " ms")) v ?_ ?_
    · rw [splitlines_single hnl hne]
      exact hmark
    · exact (extractAvg_four hch).trans hv

/-- Witness for C5 at the concrete statistics line. -/
theorem C5_mean_is_second_element_witness :
    run_ping (.ok 0 (sl "rtt min/avg/max/mdev " ++ '=' :: ' ' ::
        ((sl "10.1" ++ '/' :: (sl "12.5" ++ '/' :: (sl "15.0" ++ '/' :: sl "1.2"))) ++
          sl " ms")) []) = (some (25 / 2 : ℚ), none) :=
  C5_mean_is_second_element.2 (sl "10.1") (sl "12.5") (sl "15.0") (sl "1.2") (25 / 2)
    (by decide)
    (by
      rw [show pyFloat (sl "12.5") = some ((natOfDigits (sl "12") : ℚ) +
          (natOfDigits (sl "5") : ℚ) / 10 ^ 1) from rfl,
        show natOfDigits (sl "12") = 12 from rfl,
        show natOfDigits (sl "5") = 5 from rfl]
      norm_num)

end CpuMonitor
